import Mathlib

/-!
Shallow embedding of `py_stringsimjoin/join/jaccard_join.py` (the orchestration
layer of a parallel Jaccard similarity join) together with models of the
external collaborators it calls, which are specified only by contract.

Conventions of the embedding:
* machine floats are replaced by exact fraction pairs (`Score`);
* a pandas `DataFrame` becomes a `Table` (a schema plus rows carrying the key
  value and the join-attribute token list, `none` meaning a missing value);
* the scratch directory becomes a pure file store `FS`; temp-file names are
  drawn from `Sum.inl` counters, user destinations from `Sum.inr` strings;
* Python's in-place mutation of the caller's tokenizer is an explicit
  `Tokenizer` state threaded through the run, with a call counter recording
  each `set_return_set` invocation;
* Python's local-variable binding of `_output_file` is an `Option FName`
  (`none` = unbound); reading it while unbound yields
  `PyErr.unboundLocal "_output_file"`, mirroring Python's UnboundLocalError;
* exceptions become the `PyErr` error component of each phase's result, and
  the run's outcome always carries the final tokenizer and file-store states
  (mutations survive an exception, as they do in Python).
-/

/-- Column type tag of a dataframe column (string vs numeric). -/
inductive DType where
  | str
  | num
deriving DecidableEq, Repr

/-- One input-table row: the key-attribute value and the join-attribute value.
The join attribute is modelled as the token list the external tokenizer
produces from it (tokenizer internals are out of scope per the spec);
`none` means the value is missing. -/
structure Row where
  key : Option Nat
  join : Option (List String)
deriving DecidableEq, Repr

/-- An input dataframe: named, typed columns plus the rows' modelled values. -/
structure Table where
  schema : List (String × DType)
  rows : List Row
deriving DecidableEq, Repr

/-- An exact similarity score `num / den`, replacing the float of the source. -/
structure Score where
  num : Nat
  den : Nat
deriving DecidableEq, Repr

/-- One output-table row: left key, right key, optional similarity score. -/
structure ORow where
  lk : Nat
  rk : Nat
  score : Option Score
deriving DecidableEq, Repr

/-- A persisted output row: optional `_id` field (assigned at finalization)
plus the data row. -/
abbrev FileRow := Option Nat × ORow

/-- The caller's tokenizer object: its `return_set` flag plus a counter of the
`set_return_set` calls made on it, so that "modified exactly once/never" is
observable. -/
structure Tokenizer where
  return_set : Bool
  calls : Nat
deriving DecidableEq, Repr

/-- Python exceptions relevant to this code path. -/
inductive PyErr where
  | validationError
  | unboundLocal (name : String)
  | mergeError
  | osError (f : Sum Nat String)
deriving DecidableEq, Repr

/-- File names: scratch-directory temp files are keyed by a fresh counter
(`Sum.inl`), caller-supplied destinations by their path string (`Sum.inr`). -/
abbrev FName := Sum Nat String

/-- The scratch/output file store: file contents plus the fresh-name counter. -/
structure FS where
  files : List (FName × List FileRow)
  counter : Nat
deriving DecidableEq, Repr

/-- Failure-injection environment for the external I/O collaborators:
whether spool concatenation succeeds, and which files cannot be deleted. -/
structure IOEnv where
  mergeOk : Bool
  undeletable : List FName
deriving DecidableEq, Repr

/-- The arguments of `jaccard_join` that the model retains (projection
prefixes and the score-column toggle do not influence any claim). -/
structure Args where
  ltable : Table
  rtable : Table
  l_key_attr : String
  r_key_attr : String
  l_join_attr : String
  r_join_attr : String
  threshold : Score
  comp_op : String
  allow_empty : Bool
  allow_missing : Bool
  l_out_attrs : Option (List String)
  r_out_attrs : Option (List String)
  n_jobs : Int
  show_progress : Bool
  output_file : Option String
  flush_after : Nat
deriving Repr

/-- The observable outcome of a call: the returned value (or exception) plus
the final states of the caller's tokenizer and of the file store. -/
structure Outcome where
  result : Except PyErr (Option (List FileRow))
  tok : Tokenizer
  fs : FS
deriving Repr

/-! ### File-store primitives -/

def lookupF : List (FName × List FileRow) → FName → Option (List FileRow)
  | [], _ => none
  | (g, c) :: rest, f => if g = f then some c else lookupF rest f

def setF : List (FName × List FileRow) → FName → List FileRow → List (FName × List FileRow)
  | [], f, c => [(f, c)]
  | (g, d) :: rest, f, c => if g = f then (f, c) :: rest else (g, d) :: setF rest f c

def eraseF : List (FName × List FileRow) → FName → List (FName × List FileRow)
  | [], _ => []
  | (g, d) :: rest, f => if g = f then eraseF rest f else (g, d) :: eraseF rest f

def FS.read (fs : FS) (f : FName) : List FileRow := (lookupF fs.files f).getD []

def FS.isfile (fs : FS) (f : FName) : Bool := (lookupF fs.files f).isSome

def FS.writeF (fs : FS) (f : FName) (c : List FileRow) : FS :=
  { fs with files := setF fs.files f c }

def FS.appendF (fs : FS) (f : FName) (c : List FileRow) : FS :=
  fs.writeF f (fs.read f ++ c)

def FS.removeFile (fs : FS) (f : FName) : FS :=
  { fs with files := eraseF fs.files f }

/-- `tempfile.NamedTemporaryFile(dir=scratch_dir, delete=False)`: allocate a
fresh scratch name and create the (empty) file. -/
def FS.mkTemp (fs : FS) : FName × FS :=
  (Sum.inl fs.counter,
   { files := setF fs.files (Sum.inl fs.counter) [], counter := fs.counter + 1 })

/-- `os.remove`: fails on an undeletable or absent file, else drops it. -/
def os_remove (env : IOEnv) (f : FName) (fs : FS) : Except PyErr FS :=
  if env.undeletable.contains f then .error (.osError f)
  else if fs.isfile f then .ok (fs.removeFile f)
  else .error (.osError f)

/-! ### Modelled external collaborators -/

/-- Keep-first deduplication of a token list. -/
def dedupTok : List String → List String :=
  go []
where
  go (seen : List String) : List String → List String
    | [] => []
    | x :: xs => if seen.contains x then go seen xs else x :: go (x :: seen) xs

/-- Modelled from the spec: the tokenizer "produces a set of tokens from a
string"; the join-attribute value is carried as the raw token list, and the
tokenizer's set-returning mode decides whether duplicates are removed. -/
def tokenize (tok : Tokenizer) (ts : List String) : List String :=
  if tok.return_set then dedupTok ts else ts

/-- `tokenizer.set_return_set(b)`: flips the flag and records the call. -/
def set_return_set (t : Tokenizer) (b : Bool) : Tokenizer :=
  { return_set := b, calls := t.calls + 1 }

def keyOf (r : Row) : Nat := r.key.getD 0

/-- Jaccard score of two (deduplicated) token lists as an exact fraction. -/
def jaccard_score (x y : List String) : Score :=
  ⟨(x.filter (fun t => y.contains t)).length,
   (x ++ y.filter (fun t => !x.contains t)).length⟩

/-- The threshold comparison: `>=`, `>` or `=`, by cross-multiplication. -/
def comp_fn (op : String) (s t : Score) : Bool :=
  if op = ">=" then decide (t.num * s.den ≤ s.num * t.den)
  else if op = ">" then decide (t.num * s.den < s.num * t.den)
  else decide (s.num * t.den = t.num * s.den)

/-- Modelled from the spec: the external per-partition similarity-join kernel
`set_sim_join` (§4.3, §6 of the spec; the kernel source is not under src/).
For each row pair with both join attributes present it emits the pair when
the Jaccard score satisfies the comparison with the threshold; when both
token sets are empty the pair is included (score 1) exactly when
`allow_empty` holds.  The trailing flag is the progress-reporting switch the
caller passes; it has no bearing on the computed rows. -/
def set_sim_join (l r : List Row) (tok : Tokenizer) (threshold : Score)
    (comp_op : String) (allow_empty : Bool) (_sp : Bool) : List ORow :=
  l.flatMap fun lr =>
    r.filterMap fun rr =>
      match lr.join, rr.join with
      | some lts, some rts =>
        let x := tokenize tok lts
        let y := tokenize tok rts
        if x.isEmpty && y.isEmpty then
          if allow_empty then some ⟨keyOf lr, keyOf rr, some ⟨1, 1⟩⟩ else none
        else
          let s := jaccard_score x y
          if comp_fn comp_op s threshold then some ⟨keyOf lr, keyOf rr, some s⟩
          else none
      | _, _ => none

/-- Modelled from the spec: `get_pairs_with_missing_value` (§4.4; source not
under src/) — a row with a missing join attribute is paired with every row of
the other relation, and a pair in which both sides are missing is emitted
exactly once.  Missing-value pairs carry no score. -/
def get_pairs_with_missing_value (lt rt : Table) : List ORow :=
  ((lt.rows.filter fun x => x.join.isNone).flatMap fun lr =>
    rt.rows.map fun rr => ⟨keyOf lr, keyOf rr, none⟩)
  ++ ((lt.rows.filter fun x => x.join.isSome).flatMap fun lr =>
    (rt.rows.filter fun x => x.join.isNone).map fun rr => ⟨keyOf lr, keyOf rr, none⟩)

/-- Modelled from the spec: the kernel's output spooler (§4.6) buffers rows and
appends the buffer to its sink whenever it exceeds `flush_after`, so the
flushed prefix is the largest multiple of `flush_after + 1` rows and the
remainder stays in memory.  Returns `(flushed prefix, residual buffer)`. -/
def spool_split (pairs : List ORow) (flush_after : Nat) : List ORow × List ORow :=
  let k := pairs.length / (flush_after + 1) * (flush_after + 1)
  (pairs.take k, pairs.drop k)

/-- Rows as appended to a spool file: no identifier yet. -/
def noId (rows : List ORow) : List FileRow := rows.map fun r => (none, r)

/-- Rows with the zero-based sequential `_id` column prepended. -/
def withIds (rows : List ORow) : List FileRow :=
  rows.enum.map fun p => (some p.1, p.2)

/-- Modelled from the spec: `write_file_with_id` (§4.6; source not under src/)
re-reads the spool content and writes it to the destination with a
monotonically increasing zero-based identifier as the first field, in file
order. -/
def write_file_with_id (content : List FileRow) : List FileRow :=
  withIds (content.map Prod.snd)

/-- Modelled from the spec: `merge_outputs` (§4.5; source not under src/)
appends each per-job temp file's contents, in the list's (job-index) order,
to the shared spool file; `IOEnv.mergeOk = false` injects the fatal
concatenation failure the spec describes. -/
def merge_outputs (env : IOEnv) (inputs : List FName) (target : FName) (fs : FS) :
    Except PyErr FS :=
  if env.mergeOk then
    .ok (inputs.foldl (fun acc f => acc.appendF target (acc.read f)) fs)
  else .error .mergeError

/-- Modelled from the spec: `get_temp_filenames` (source not under src/)
allocates one fresh scratch file per job. -/
def get_temp_filenames : Nat → FS → List FName × FS
  | 0, fs => ([], fs)
  | n + 1, fs =>
    let t := fs.mkTemp
    let rest := get_temp_filenames n t.2
    (t.1 :: rest.1, rest.2)

/-- Modelled from the spec: `convert_dataframe_to_array` (§4.1; source not
under src/) projects the dataframe and drops rows whose join attribute is
missing. -/
def convert_dataframe_to_array (t : Table) : List Row :=
  t.rows.filter fun r => r.join.isSome

/-- Modelled from the spec: `get_num_processes_to_launch` (source not under
src/), per the docstring of `jaccard_join`: nonpositive `n_jobs` maps to
`n_cpus + 1 + n_jobs`, and anything below 1 falls back to 1. -/
def get_num_processes_to_launch (n_jobs : Int) (n_cpus : Nat) : Nat :=
  (max (if n_jobs < 0 then (n_cpus : Int) + 1 + n_jobs else n_jobs) 1).toNat

/-- Line 173 of the source: `min(get_num_processes_to_launch(n_jobs),
len(rtable_array))`. -/
def effective_n_jobs (a : Args) (n_cpus : Nat) : Nat :=
  min (get_num_processes_to_launch a.n_jobs n_cpus)
    (convert_dataframe_to_array a.rtable).length

def ceil_div (a b : Nat) : Nat := (a + b - 1) / b

/-- Modelled from the spec: `split_table` (§4.2; source not under src/) splits
the row array into `n` contiguous partitions whose sizes differ by at most
one, preserving order; the first partition takes the ceiling share. -/
def split_table : List Row → Nat → List (List Row)
  | _, 0 => []
  | rows, 1 => [rows]
  | rows, n + 2 =>
    let k := ceil_div rows.length (n + 2)
    rows.take k :: split_table (rows.drop k) (n + 1)

/-- The progress flag handed to job `j` of `n` (lines 224 and 255 of the
source): `show_progress and (job_index == n_jobs - 1)`. -/
def job_show_progress (sp : Bool) (n j : Nat) : Bool :=
  sp && decide (j = n - 1)

/-! ### Validation (external collaborators; modelled from the spec §6) -/

/-- Modelled from the spec: `validate_attr` — the named attribute must exist
in the table's schema. -/
def validate_attr (attr : String) (t : Table) : Bool :=
  (t.schema.map Prod.fst).contains attr

/-- Modelled from the spec: `validate_attr_type` — the join attribute must not
be numeric. -/
def validate_attr_type (attr : String) (t : Table) : Bool :=
  List.lookup attr t.schema == some DType.str

/-- Modelled from the spec: `validate_tokenizer` — the argument is a tokenizer
object, which the typed embedding guarantees. -/
def validate_tokenizer (_tok : Tokenizer) : Bool := true

/-- Modelled from the spec: `validate_threshold` for JACCARD — the threshold
must lie in (0, 1]. -/
def validate_threshold (t : Score) : Bool :=
  decide (0 < t.num) && decide (t.num ≤ t.den)

/-- Modelled from the spec: `validate_comp_op_for_sim_measure` for JACCARD. -/
def validate_comp_op (op : String) : Bool :=
  op == ">=" || op == ">" || op == "="

/-- Modelled from the spec: `validate_output_attrs` — every requested output
attribute must exist in its table's schema. -/
def validate_output_attrs (oa : Option (List String)) (t : Table) : Bool :=
  (oa.getD []).all fun x => (t.schema.map Prod.fst).contains x

/-- Modelled from the spec: `validate_key_attr` — the key attribute must be
unique and contain no missing values. -/
def validate_key_attr (t : Table) : Bool :=
  (t.rows.all fun r => r.key.isSome) && decide (t.rows.map (fun r => r.key)).Nodup

/-- Lines 116-150 of the source: every validation check, in order; all raise
the same `ValidationError` on failure. -/
def validations (a : Args) (tok : Tokenizer) : Bool :=
  validate_attr a.l_key_attr a.ltable && validate_attr a.r_key_attr a.rtable &&
  validate_attr a.l_join_attr a.ltable && validate_attr a.r_join_attr a.rtable &&
  validate_attr_type a.l_join_attr a.ltable &&
  validate_attr_type a.r_join_attr a.rtable &&
  validate_tokenizer tok &&
  validate_threshold a.threshold && validate_comp_op a.comp_op &&
  validate_output_attrs a.l_out_attrs a.ltable &&
  validate_output_attrs a.r_out_attrs a.rtable &&
  validate_key_attr a.ltable && validate_key_attr a.rtable

/-! ### The orchestration phases of `jaccard_join` -/

/-- Lines 177-189 of the source: when a persisted destination is requested,
allocate the shared spool temp file and write the header to it; the local
`_output_file` stays unbound (`none`) otherwise. -/
def init_spool (a : Args) (fs : FS) : Option FName × FS :=
  match a.output_file with
  | some _ =>
    let t := FS.mkTemp fs
    (some t.1, t.2)
  | none => (none, fs)

/-- Lines 231-233 of the source: `for f in files: if os.path.isfile(f):
os.remove(f)` — absent files are skipped, but an error raised by the removal
itself propagates (there is no try/except around it). -/
def remove_files (env : IOEnv) : List FName → FS → Option PyErr × FS
  | [], fs => (none, fs)
  | f :: rest, fs =>
    if fs.isfile f then
      match os_remove env f fs with
      | .error e => (some e, fs)
      | .ok fs' => remove_files env rest fs'
    else remove_files env rest fs

/-- Lines 214-226 of the source: the parallel dispatch in file mode — one
kernel call per partition (job order), each job spooling its flushed chunks
to its own per-job temp file and keeping its residual in memory.  Returns
the per-job residual tables (in job order) and the file store after the
per-job spooling. -/
def dispatch_file_jobs (a : Args) (tok : Tokenizer) (larr : List Row)
    (r_splits : List (List Row)) (names : List FName) (n fa : Nat) (fs : FS) :
    List (List ORow) × FS :=
  (List.range n).foldl
    (fun (st : List (List ORow) × FS) j =>
      let pairs := set_sim_join larr (r_splits.getD j []) tok a.threshold
        a.comp_op a.allow_empty (job_show_progress a.show_progress n j)
      let fl := spool_split pairs fa
      (st.1 ++ [fl.2], st.2.appendF (names.getD j (Sum.inl 0)) (noId fl.1)))
    ([], fs)

/-- Lines 192-258 of the source: the main-join phase.  With at most one job
the kernel is called directly in the caller's context — unconditionally
passing the local `_output_file` (line 203).  With more than one job the
right array is partitioned and one kernel call is dispatched per partition;
in file mode each job spools to its own temp file, the temp files are
concatenated into the shared spool in job order, the per-job files are
removed, and — line 236-238 — if the concatenated residual exceeds
`flush_after` it is appended to the caller's destination file (`output_file`,
not the spool) and the in-memory table is cleared. -/
def main_join (a : Args) (tok : Tokenizer) (larr rarr : List Row) (n_jobs : Nat)
    (ofile? : Option FName) (env : IOEnv) (fs : FS) :
    Except PyErr (List ORow) × FS :=
  if n_jobs ≤ 1 then
    match ofile? with
    | none => (.error (.unboundLocal "_output_file"), fs)
    | some of =>
      let pairs := set_sim_join larr rarr tok a.threshold a.comp_op a.allow_empty
        a.show_progress
      let fl := spool_split pairs a.flush_after
      (.ok fl.2, fs.appendF of (noId fl.1))
  else
    let r_splits := split_table rarr n_jobs
    match a.output_file with
    | some dest =>
      let tf := get_temp_filenames n_jobs fs
      let st := dispatch_file_jobs a tok larr r_splits tf.1 n_jobs
        (ceil_div a.flush_after n_jobs) tf.2
      match ofile? with
      | none => (.error (.unboundLocal "_output_file"), st.2)
      | some of =>
        match merge_outputs env tf.1 of st.2 with
        | .error e => (.error e, st.2)
        | .ok fs3 =>
          match remove_files env tf.1 fs3 with
          | (some e, fs4) => (.error e, fs4)
          | (none, fs4) =>
            let output_table := st.1.flatten
            if output_table.length > a.flush_after then
              (.ok [], fs4.appendF (Sum.inr dest) (noId output_table))
            else (.ok output_table, fs4)
    | none =>
      let results := (List.range n_jobs).map fun j =>
        set_sim_join larr (r_splits.getD j []) tok a.threshold a.comp_op
          a.allow_empty (job_show_progress a.show_progress n_jobs j)
      (.ok results.flatten, fs)

/-- Lines 260-271 of the source: when `allow_missing` is set, compute the
missing-value pairs — reading the local `_output_file` to pass it as the
collaborator's sink, which raises UnboundLocalError when it is unbound — and
append their residual to the output table (flushed chunks go to the spool). -/
def missing_phase (a : Args) (table : List ORow) (ofile? : Option FName)
    (fs : FS) : Except PyErr (List ORow) × FS :=
  if a.allow_missing then
    match ofile? with
    | none => (.error (.unboundLocal "_output_file"), fs)
    | some of =>
      let mp := get_pairs_with_missing_value a.ltable a.rtable
      let fl := spool_split mp a.flush_after
      (.ok (table ++ fl.2), fs.appendF of (noId fl.1))
  else (.ok table, fs)

/-- Lines 278-289 of the source: in-memory mode inserts the `_id` column and
returns the table; file mode appends the remaining rows to the spool,
rewrites the spool into the destination with identifiers, and removes the
spool (an `os.remove` failure there propagates). -/
def finalize (a : Args) (table : List ORow) (ofile? : Option FName)
    (env : IOEnv) (fs : FS) : Except PyErr (Option (List FileRow)) × FS :=
  match a.output_file with
  | none => (.ok (some (withIds table)), fs)
  | some dest =>
    match ofile? with
    | none => (.error (.unboundLocal "_output_file"), fs)
    | some of =>
      match os_remove env of
          ((fs.appendF of (noId table)).writeF (Sum.inr dest)
            (write_file_with_id ((fs.appendF of (noId table)).read of))) with
      | .error e =>
        (.error e,
         (fs.appendF of (noId table)).writeF (Sum.inr dest)
           (write_file_with_id ((fs.appendF of (noId table)).read of)))
      | .ok fs3 => (.ok none, fs3)

/-- Lines 152-156 of the source: enable the tokenizer's set-returning mode
when it is off; an already-enabled tokenizer is left untouched. -/
def enabled_tok (t : Tokenizer) : Tokenizer :=
  if !t.return_set then set_return_set t true else t

/-- Lines 273-275 of the source: revert the flag exactly when it had been
toggled on entry (applied to the tokenizer as mutated so far). -/
def reverted_tok (t0 : Tokenizer) : Tokenizer :=
  if !t0.return_set then set_return_set (enabled_tok t0) false else enabled_tok t0

/-- The embedding of `jaccard_join` (lines 24-289 of the source).  Takes the
failure-injection environment, the machine's CPU count, and the initial
tokenizer and file-store states; returns the observable outcome. -/
def jaccard_join (a : Args) (env : IOEnv) (n_cpus : Nat) (tok0 : Tokenizer)
    (fs0 : FS) : Outcome :=
  if validations a tok0 then
    match main_join a (enabled_tok tok0) (convert_dataframe_to_array a.ltable)
        (convert_dataframe_to_array a.rtable) (effective_n_jobs a n_cpus)
        (init_spool a fs0).1 env (init_spool a fs0).2 with
    | (.error e, fs') => ⟨.error e, enabled_tok tok0, fs'⟩
    | (.ok table, fs2) =>
      match missing_phase a table (init_spool a fs0).1 fs2 with
      | (.error e, fs') => ⟨.error e, enabled_tok tok0, fs'⟩
      | (.ok table2, fs3) =>
        match finalize a table2 (init_spool a fs0).1 env fs3 with
        | (.error e, fs') => ⟨.error e, reverted_tok tok0, fs'⟩
        | (.ok ret, fs4) => ⟨.ok ret, reverted_tok tok0, fs4⟩
  else ⟨.error .validationError, tok0, fs0⟩

/-! ### Observable-output predicates -/

/-- The identifier column of a row list is exactly `0..N-1`, in order. -/
def contiguous_ids (rows : List FileRow) : Prop :=
  rows.map Prod.fst = (List.range rows.length).map some

/-- Identifier contiguity of a run's observable output: the returned in-memory
table when the run returns one, and the persisted destination file's content
when a persisted destination was requested and the run returned normally. -/
def outcome_ids_ok (a : Args) (o : Outcome) : Prop :=
  (∀ t, o.result = .ok (some t) → contiguous_ids t) ∧
  (∀ f c, o.result = .ok none → a.output_file = some f →
    lookupF o.fs.files (Sum.inr f) = some c → contiguous_ids c)

/-! ### Concrete inputs used by witnesses and counterexamples -/

/-- A two-column schema: a numeric key and a string join attribute. -/
def sampleSchema : List (String × DType) := [("id", DType.num), ("s", DType.str)]

/-- Left relation: one row, key 1, join tokens `a b`. -/
def sampleL : Table := ⟨sampleSchema, [⟨some 1, some ["a", "b"]⟩]⟩

/-- Right relation: keys 10 and 20, both with join tokens `a b`. -/
def sampleR : Table :=
  ⟨sampleSchema, [⟨some 10, some ["a", "b"]⟩, ⟨some 20, some ["a", "b"]⟩]⟩

/-- A valid baseline call: threshold 1/2 with `>=`, two jobs, in-memory
output, flush threshold 1. -/
def memArgs : Args :=
  { ltable := sampleL, rtable := sampleR,
    l_key_attr := "id", r_key_attr := "id",
    l_join_attr := "s", r_join_attr := "s",
    threshold := ⟨1, 2⟩, comp_op := ">=",
    allow_empty := true, allow_missing := false,
    l_out_attrs := none, r_out_attrs := none,
    n_jobs := 2, show_progress := true,
    output_file := none, flush_after := 1 }

/-- The same call with a single job requested. -/
def memArgs1 : Args := { memArgs with n_jobs := 1 }

/-- The same call with a persisted destination. -/
def fileArgs : Args := { memArgs with output_file := some "out" }

/-- The persisted-destination call with flush threshold 0, so that every row
reaches the spool through the per-job temp files. -/
def fileArgs0 : Args := { fileArgs with flush_after := 0 }

/-- The baseline call with the missing-value pass enabled. -/
def missingArgs : Args := { memArgs with allow_missing := true }

/-- The baseline call with an empty right relation. -/
def emptyRightArgs : Args := { memArgs with rtable := ⟨sampleSchema, []⟩ }

/-- An invalid call: Jaccard threshold 2 is out of range. -/
def badArgs : Args := { memArgs with threshold := ⟨2, 1⟩ }

/-- A tokenizer whose set-returning mode is off, with no calls recorded. -/
def tokOff : Tokenizer := ⟨false, 0⟩

/-- An empty scratch directory. -/
def emptyFS : FS := ⟨[], 0⟩

/-- The I/O environment in which every operation succeeds. -/
def okEnv : IOEnv := ⟨true, []⟩

/-- The I/O environment in which spool concatenation fails. -/
def mergeFailEnv : IOEnv := ⟨false, []⟩

/-- The I/O environment in which the first per-job temp file (name 1; the
shared spool takes name 0) cannot be deleted. -/
def undelEnv : IOEnv := ⟨true, [Sum.inl 1]⟩

/-- The qualifying pair (1, 10) with score 2/2. -/
def pairA : ORow := ⟨1, 10, some ⟨2, 2⟩⟩

/-- The qualifying pair (1, 20) with score 2/2. -/
def pairB : ORow := ⟨1, 20, some ⟨2, 2⟩⟩

/-! ### Helper lemmas -/

theorem lookupF_setF_self (l : List (FName × List FileRow)) (f : FName)
    (c : List FileRow) : lookupF (setF l f c) f = some c := by
  induction l with
  | nil => simp [setF, lookupF]
  | cons hd tl ih =>
    obtain ⟨g, d⟩ := hd
    by_cases h : g = f
    · simp [setF, h, lookupF]
    · simp [setF, h, lookupF, ih]

theorem lookupF_eraseF_ne (l : List (FName × List FileRow)) (g f : FName)
    (h : g ≠ f) : lookupF (eraseF l g) f = lookupF l f := by
  induction l with
  | nil => simp [eraseF]
  | cons hd tl ih =>
    obtain ⟨g', d⟩ := hd
    by_cases h' : g' = g
    · subst h'
      simp [eraseF, lookupF, h, ih]
    · simp only [eraseF, if_neg h', lookupF, ih]

theorem map_fst_withIds (t : List ORow) :
    (withIds t).map Prod.fst = (List.range t.length).map some := by
  simp only [withIds, List.map_map]
  have h1 : (Prod.fst ∘ fun p : Nat × ORow => ((some p.1 : Option Nat), p.2))
      = some ∘ Prod.fst := rfl
  rw [h1, ← List.map_map, List.enum_map_fst]

theorem length_withIds (t : List ORow) : (withIds t).length = t.length := by
  simp [withIds]

theorem contiguous_ids_withIds (t : List ORow) : contiguous_ids (withIds t) := by
  unfold contiguous_ids
  rw [length_withIds, map_fst_withIds]

theorem contiguous_ids_write_file_with_id (c : List FileRow) :
    contiguous_ids (write_file_with_id c) :=
  contiguous_ids_withIds _

theorem one_le_get_num_processes (n_jobs : Int) (n_cpus : Nat) :
    1 ≤ get_num_processes_to_launch n_jobs n_cpus := by
  unfold get_num_processes_to_launch
  have h : (1 : Int) ≤ max (if n_jobs < 0 then (n_cpus : Int) + 1 + n_jobs else n_jobs) 1 :=
    le_max_right _ _
  exact Int.toNat_le_toNat h

/-! ### Claim theorems -/

/-- C1: the two output strategies do not produce the same observable content,
and the persisted strategy loses rows.  On a valid input with two qualifying
pairs (and flush threshold 1), the in-memory strategy returns both pairs,
while the persisted strategy ends with an empty destination file: the merged
residual exceeds the flush threshold, is appended to the destination file
itself (line 237 of the source, instead of the spool), and is then overwritten
by identifier finalization. -/
theorem persisted_output_loses_rows :
    (jaccard_join memArgs okEnv 4 tokOff emptyFS).result =
      Except.ok (some (withIds [pairA, pairB])) ∧
    (jaccard_join fileArgs okEnv 4 tokOff emptyFS).result = Except.ok none ∧
    lookupF (jaccard_join fileArgs okEnv 4 tokOff emptyFS).fs.files
      (Sum.inr "out") = some [] :=
  ⟨rfl, rfl, rfl⟩

/-- C2: on a valid input with no persisted destination and an effective job
count of 1, `jaccard_join` does not return the in-memory table: it raises
Python's UnboundLocalError, because the unconditional kernel call of the
single-job path reads the local `_output_file`, which is bound only when a
persisted destination was requested. -/
theorem single_job_inmemory_raises_unbound_local :
    validations memArgs1 tokOff = true ∧
    effective_n_jobs memArgs1 4 = 1 ∧
    (jaccard_join memArgs1 okEnv 4 tokOff emptyFS).result =
      Except.error (PyErr.unboundLocal "_output_file") :=
  ⟨rfl, rfl, rfl⟩

/-- C3: running the same valid in-memory input with `n_jobs = 1` and with
`n_jobs = 2` does not yield identical sets of output pairs: the single-job
run raises UnboundLocalError and produces no pairs, while the two-job run
returns both qualifying pairs. -/
theorem job_count_changes_output_pairs :
    (jaccard_join memArgs1 okEnv 4 tokOff emptyFS).result =
      Except.error (PyErr.unboundLocal "_output_file") ∧
    (jaccard_join memArgs okEnv 4 tokOff emptyFS).result =
      Except.ok (some (withIds [pairA, pairB])) :=
  ⟨rfl, rfl⟩

/-- C5 (counterexample): on a valid input whose right relation has no row
with a non-missing join attribute, the effective job count is
`min(2, 0) = 0`, which does not lie in the claimed interval
`[1, min(requested, row_count)]` (that interval is empty). -/
theorem effective_jobs_zero_on_empty_right :
    validations emptyRightArgs tokOff = true ∧
    (convert_dataframe_to_array emptyRightArgs.rtable).length = 0 ∧
    effective_n_jobs emptyRightArgs 4 = 0 :=
  ⟨rfl, rfl, rfl⟩

/-- C5 (amended): the effective job count never exceeds the filtered
right-relation row count, and whenever that row count is at least 1 it lies
in `[1, min(derived process count, row count)]`. -/
theorem effective_jobs_interval (a : Args) (n_cpus : Nat)
    (h : 1 ≤ (convert_dataframe_to_array a.rtable).length) :
    1 ≤ effective_n_jobs a n_cpus ∧
    effective_n_jobs a n_cpus ≤ get_num_processes_to_launch a.n_jobs n_cpus ∧
    effective_n_jobs a n_cpus ≤ (convert_dataframe_to_array a.rtable).length := by
  unfold effective_n_jobs
  refine ⟨?_, Nat.min_le_left _ _, Nat.min_le_right _ _⟩
  exact le_min (one_le_get_num_processes _ _) h

/-- Witness for `effective_jobs_interval` at the baseline input. -/
theorem effective_jobs_interval_witness :
    1 ≤ (convert_dataframe_to_array memArgs.rtable).length ∧
    (1 ≤ effective_n_jobs memArgs 4 ∧
     effective_n_jobs memArgs 4 ≤ get_num_processes_to_launch memArgs.n_jobs 4 ∧
     effective_n_jobs memArgs 4 ≤ (convert_dataframe_to_array memArgs.rtable).length) :=
  ⟨by decide, effective_jobs_interval memArgs 4 (by decide)⟩

/-- C6 (counterexample): a run that fails (here: the valid single-job
in-memory input, which raises UnboundLocalError) does not revert the
tokenizer: its set-returning mode was off on entry, was enabled by the run,
and is still enabled — with exactly one `set_return_set` call recorded — when
control returns to the caller. -/
theorem tokenizer_left_enabled_on_failure :
    tokOff.return_set = false ∧
    (jaccard_join memArgs1 okEnv 4 tokOff emptyFS).result =
      Except.error (PyErr.unboundLocal "_output_file") ∧
    (jaccard_join memArgs1 okEnv 4 tokOff emptyFS).tok = ⟨true, 1⟩ :=
  ⟨rfl, rfl, rfl⟩

/-- C9 (counterexample): a failure to delete a per-job temp file after the
merge is fatal, not non-fatal: with the first per-job temp file undeletable,
the run aborts with that OSError, whereas the identical run with deletable
temp files completes; so the deletion failure aborts a run that would
otherwise succeed. -/
theorem temp_file_deletion_failure_aborts :
    (jaccard_join fileArgs undelEnv 4 tokOff emptyFS).result =
      Except.error (PyErr.osError (Sum.inl 1)) ∧
    (jaccard_join fileArgs okEnv 4 tokOff emptyFS).result = Except.ok none :=
  ⟨rfl, rfl⟩

/-- Concrete runs showing the merge/cleanup hypotheses realisable: with flush
threshold 0 every pair reaches the destination through the spool, job 0's
pair preceding job 1's (ascending job-index order); the same input aborts
with the merge error when concatenation fails, and with the OSError when a
per-job temp file cannot be deleted. -/
theorem merge_order_and_failures :
    lookupF (jaccard_join fileArgs0 okEnv 4 tokOff emptyFS).fs.files
      (Sum.inr "out") = some (withIds [pairA, pairB]) ∧
    (jaccard_join fileArgs0 mergeFailEnv 4 tokOff emptyFS).result =
      Except.error PyErr.mergeError ∧
    (jaccard_join fileArgs0 undelEnv 4 tokOff emptyFS).result =
      Except.error (PyErr.osError (Sum.inl 1)) :=
  ⟨rfl, rfl, rfl⟩

/-- C7: in every dispatch, a job whose progress flag is true must own the
last partition, and every job with a smaller index receives `false`,
whatever progress setting the caller requested. -/
theorem only_last_job_receives_progress (sp : Bool) (n j : Nat) (_hj : j < n) :
    (job_show_progress sp n j = true → j = n - 1) ∧
    (j < n - 1 → job_show_progress sp n j = false) := by
  constructor
  · intro h
    simp only [job_show_progress, Bool.and_eq_true, decide_eq_true_eq] at h
    exact h.2
  · intro hlt
    have hne : j ≠ n - 1 := Nat.ne_of_lt hlt
    simp [job_show_progress, hne]

/-- Witness for `only_last_job_receives_progress`: job 1 of 3. -/
theorem only_last_job_receives_progress_witness :
    (job_show_progress true 3 1 = true → 1 = 3 - 1) ∧
    (1 < 3 - 1 → job_show_progress true 3 1 = false) :=
  only_last_job_receives_progress true 3 1 (by decide)

/-- C8: when any validation check fails, `jaccard_join` raises the
validation error with the tokenizer and the file store exactly as they were
on entry — no temp file is created, no snapshot, partition or dispatch work
has any observable effect. -/
theorem validation_failure_aborts_run (a : Args) (env : IOEnv) (n_cpus : Nat)
    (tok0 : Tokenizer) (fs0 : FS) (h : validations a tok0 = false) :
    jaccard_join a env n_cpus tok0 fs0 =
      ⟨Except.error PyErr.validationError, tok0, fs0⟩ := by
  unfold jaccard_join
  simp [h]

/-- Witness for `validation_failure_aborts_run`: an out-of-range threshold. -/
theorem validation_failure_aborts_run_witness :
    validations badArgs tokOff = false ∧
    jaccard_join badArgs okEnv 4 tokOff emptyFS =
      ⟨Except.error PyErr.validationError, tokOff, emptyFS⟩ :=
  ⟨rfl, validation_failure_aborts_run badArgs okEnv 4 tokOff emptyFS rfl⟩

/-- C10: every valid call in in-memory mode (`output_file = none`) with the
missing-value pass enabled raises UnboundLocalError for `_output_file` — the
local is bound only when a persisted destination was requested — so the
missing-value pass never completes in in-memory mode. -/
theorem allow_missing_inmemory_raises_unbound_local (a : Args) (env : IOEnv)
    (n_cpus : Nat) (tok0 : Tokenizer) (fs0 : FS)
    (hv : validations a tok0 = true) (hm : a.allow_missing = true)
    (ho : a.output_file = none) :
    (jaccard_join a env n_cpus tok0 fs0).result =
      Except.error (PyErr.unboundLocal "_output_file") := by
  by_cases hn : effective_n_jobs a n_cpus ≤ 1
  · simp [jaccard_join, main_join, init_spool, hv, hm, ho, hn]
  · simp [jaccard_join, main_join, missing_phase, init_spool, hv, hm, ho, hn]

/-- Witness for `allow_missing_inmemory_raises_unbound_local`: the baseline
two-job input with `allow_missing` enabled, which reaches the missing-value
completion call and fails there. -/
theorem allow_missing_inmemory_witness :
    validations missingArgs tokOff = true ∧
    missingArgs.allow_missing = true ∧
    missingArgs.output_file = none ∧
    (jaccard_join missingArgs okEnv 4 tokOff emptyFS).result =
      Except.error (PyErr.unboundLocal "_output_file") :=
  ⟨rfl, rfl, rfl,
   allow_missing_inmemory_raises_unbound_local missingArgs okEnv 4 tokOff
     emptyFS rfl rfl rfl⟩

/-- C6 (amended): on every run that returns normally, the tokenizer's state
is restored — if its set-returning mode was off on entry it is off again,
with exactly two `set_return_set` calls recorded (one enable, one revert) —
and a tokenizer whose mode was already on is returned unmodified. -/
theorem tokenizer_restored_on_success (a : Args) (env : IOEnv) (n_cpus : Nat)
    (tok0 : Tokenizer) (fs0 : FS)
    (h : ∃ r, (jaccard_join a env n_cpus tok0 fs0).result = Except.ok r) :
    (jaccard_join a env n_cpus tok0 fs0).tok =
      if tok0.return_set then tok0 else ⟨false, tok0.calls + 2⟩ := by
  obtain ⟨r, hr⟩ := h
  revert hr
  generalize hjj : jaccard_join a env n_cpus tok0 fs0 = o
  intro hr
  unfold jaccard_join at hjj
  split at hjj
  · split at hjj
    · subst hjj
      simp at hr
    · split at hjj
      · subst hjj
        simp at hr
      · split at hjj
        · subst hjj
          simp at hr
        · subst hjj
          show reverted_tok tok0 = _
          obtain ⟨rs, cl⟩ := tok0
          cases rs <;>
            simp [reverted_tok, enabled_tok, set_return_set]
  · subst hjj
    simp at hr

/-- Witness for `tokenizer_restored_on_success`: the baseline two-job
in-memory run, which completes and restores the initially-off tokenizer. -/
theorem tokenizer_restored_on_success_witness :
    (∃ r, (jaccard_join memArgs okEnv 4 tokOff emptyFS).result = Except.ok r) ∧
    (jaccard_join memArgs okEnv 4 tokOff emptyFS).tok =
      (if tokOff.return_set then tokOff else ⟨false, tokOff.calls + 2⟩) :=
  ⟨⟨some (withIds [pairA, pairB]), rfl⟩,
   tokenizer_restored_on_success memArgs okEnv 4 tokOff emptyFS
     ⟨some (withIds [pairA, pairB]), rfl⟩⟩

/-- C4: every run that returns normally carries a gap-free, zero-based
identifier column: the returned in-memory table's `_id` column is exactly
`0..N-1`, and in persisted mode the destination file's first field is exactly
`0..N-1` over the rows it holds, the identifiers being produced by the single
finalization step after all rows are known. -/
theorem final_output_ids_contiguous (a : Args) (env : IOEnv) (n_cpus : Nat)
    (tok0 : Tokenizer) (fs0 : FS) :
    outcome_ids_ok a (jaccard_join a env n_cpus tok0 fs0) := by
  constructor
  · intro t hres
    revert hres
    generalize hjj : jaccard_join a env n_cpus tok0 fs0 = o
    intro hres
    unfold jaccard_join at hjj
    split at hjj
    · split at hjj
      next e fs' heq =>
        subst hjj
        simp at hres
      next table fs2 heq =>
        split at hjj
        next e fs' heq2 =>
          subst hjj
          simp at hres
        next table2 fs3 heq2 =>
          split at hjj
          next e fs' heq3 =>
            subst hjj
            simp at hres
          next ret fs4 heq3 =>
            subst hjj
            simp only [Outcome.mk.injEq] at hres
            unfold finalize at heq3
            split at heq3
            next heqd =>
              simp only [Prod.mk.injEq, Except.ok.injEq] at heq3
              rw [← heq3.1] at hres
              have h3 : withIds table2 = t := by simpa using hres
              rw [← h3]
              exact contiguous_ids_withIds table2
            next dest heqd =>
              split at heq3
              next heqof =>
                simp at heq3
              next of heqof =>
                split at heq3
                next e heqr =>
                  simp at heq3
                next fs' heqr =>
                  simp only [Prod.mk.injEq, Except.ok.injEq] at heq3
                  rw [← heq3.1] at hres
                  simp at hres
    · subst hjj
      simp at hres
  · intro f c hres hout hlook
    revert hres hlook
    generalize hjj : jaccard_join a env n_cpus tok0 fs0 = o
    intro hres hlook
    unfold jaccard_join at hjj
    split at hjj
    · split at hjj
      next e fs' heq =>
        subst hjj
        simp at hres
      next table fs2 heq =>
        split at hjj
        next e fs' heq2 =>
          subst hjj
          simp at hres
        next table2 fs3 heq2 =>
          split at hjj
          next e fs' heq3 =>
            subst hjj
            simp at hres
          next ret fs4 heq3 =>
            subst hjj
            simp only [Outcome.mk.injEq] at hres
            unfold finalize at heq3
            split at heq3
            next heqd =>
              rw [heqd] at hout
              cases hout
            next dest heqd =>
              split at heq3
              next heqof =>
                simp at heq3
              next of heqof =>
                have hof : of = Sum.inl fs0.counter := by
                  unfold init_spool at heqof
                  rw [heqd] at heqof
                  simp [FS.mkTemp] at heqof
                  exact heqof.symm
                have hfd : dest = f := by
                  rw [heqd] at hout
                  injection hout
                split at heq3
                next e heqr =>
                  simp at heq3
                next fs' heqr =>
                  simp only [Prod.mk.injEq, Except.ok.injEq] at heq3
                  unfold os_remove at heqr
                  split at heqr
                  next hdel =>
                    cases heqr
                  next hdel =>
                    split at heqr
                    next hisf =>
                      simp only [Except.ok.injEq] at heqr
                      rw [← heq3.2, ← heqr] at hlook
                      simp only [FS.removeFile, FS.writeF] at hlook
                      rw [lookupF_eraseF_ne _ _ _ (by rw [hof]; simp)] at hlook
                      rw [hfd] at hlook
                      rw [lookupF_setF_self] at hlook
                      have hc : c = write_file_with_id
                          ((fs3.appendF of (noId table2)).read of) := by
                        injection hlook with h'
                        exact h'.symm
                      rw [hc]
                      exact contiguous_ids_write_file_with_id _
                    next hisf =>
                      cases heqr
    · subst hjj
      simp at hres

/-! ### Further helper lemmas: file-store invariants of the merge/cleanup path -/

theorem lookupF_setF (l : List (FName × List FileRow)) (g f : FName)
    (c : List FileRow) :
    lookupF (setF l g c) f = if g = f then some c else lookupF l f := by
  induction l with
  | nil =>
    by_cases h : g = f <;> simp [setF, lookupF, h]
  | cons hd tl ih =>
    obtain ⟨g', d⟩ := hd
    by_cases h' : g' = g
    · subst h'
      by_cases h : g' = f <;> simp [setF, lookupF, h, ih]
    · by_cases h : g' = f
      · have hgf : g ≠ f := fun hh => h' (h.trans hh.symm)
        simp [setF, h', lookupF, h, hgf, Ne.symm hgf]
      · simp [setF, h', lookupF, h, ih]

theorem read_appendF_self (fs : FS) (g : FName) (c : List FileRow) :
    (fs.appendF g c).read g = fs.read g ++ c := by
  simp [FS.appendF, FS.writeF, FS.read, lookupF_setF]

theorem read_appendF_ne (fs : FS) (g f : FName) (c : List FileRow)
    (h : g ≠ f) : (fs.appendF g c).read f = fs.read f := by
  simp [FS.appendF, FS.writeF, FS.read, lookupF_setF, h]

theorem isfile_appendF (fs : FS) (g f : FName) (c : List FileRow)
    (h : fs.isfile f = true) : (fs.appendF g c).isfile f = true := by
  simp only [FS.appendF, FS.writeF, FS.isfile, lookupF_setF] at *
  by_cases h' : g = f <;> simp [h', h]

theorem foldl_preserves {α β : Type} (P : β → Prop) (step : β → α → β)
    (hstep : ∀ b x, P b → P (step b x)) :
    ∀ (l : List α) (b : β), P b → P (List.foldl step b l) := by
  intro l
  induction l with
  | nil =>
    intro b hb
    simpa using hb
  | cons x xs ih =>
    intro b hb
    simp only [List.foldl]
    exact ih _ (hstep _ _ hb)

theorem foldl_merge_isfile (inputs : List FName) (target : FName) (fs : FS)
    (f : FName) (h : fs.isfile f = true) :
    (List.foldl (fun acc g => FS.appendF acc target (FS.read acc g)) fs
      inputs).isfile f = true :=
  foldl_preserves (fun b => FS.isfile b f = true) _
    (fun b x hb => isfile_appendF b target f (FS.read b x) hb) inputs fs h

theorem dispatch_file_jobs_isfile (a : Args) (tok : Tokenizer) (larr : List Row)
    (r_splits : List (List Row)) (names : List FName) (n fa : Nat) (fs : FS)
    (f : FName) (h : fs.isfile f = true) :
    (dispatch_file_jobs a tok larr r_splits names n fa fs).2.isfile f = true := by
  unfold dispatch_file_jobs
  exact foldl_preserves (fun st : List (List ORow) × FS => st.2.isfile f = true) _
    (fun st j hst => isfile_appendF _ _ _ _ hst) (List.range n) ([], fs) h

theorem isfile_mkTemp (fs : FS) (f : FName) (h : fs.isfile f = true) :
    (FS.mkTemp fs).2.isfile f = true := by
  simp only [FS.mkTemp, FS.isfile, lookupF_setF] at *
  by_cases h' : (Sum.inl fs.counter : FName) = f <;> simp [h', h]

theorem gtf_preserves (n : Nat) :
    ∀ (fs : FS) (f : FName), fs.isfile f = true →
      (get_temp_filenames n fs).2.isfile f = true := by
  induction n with
  | zero =>
    intro fs f h
    simpa [get_temp_filenames] using h
  | succ m ih =>
    intro fs f h
    simp only [get_temp_filenames]
    exact ih _ _ (isfile_mkTemp fs f h)

theorem gtf_head (n : Nat) (fs : FS) (hn : n ≠ 0) :
    ∃ rest, (get_temp_filenames n fs).1 = Sum.inl fs.counter :: rest := by
  cases n with
  | zero => exact absurd rfl hn
  | succ m => exact ⟨_, rfl⟩

theorem gtf_isfile_head (n : Nat) (fs : FS) (hn : n ≠ 0) :
    (get_temp_filenames n fs).2.isfile (Sum.inl fs.counter) = true := by
  cases n with
  | zero => exact absurd rfl hn
  | succ m =>
    simp only [get_temp_filenames]
    refine gtf_preserves m _ _ ?_
    simp [FS.mkTemp, FS.isfile, lookupF_setF_self]

theorem remove_files_skip_missing (env : IOEnv) (f : FName) (rest : List FName)
    (fs : FS) (h : fs.isfile f = false) :
    remove_files env (f :: rest) fs = remove_files env rest fs := by
  simp [remove_files, h]

theorem remove_files_head_undeletable (env : IOEnv) (f : FName)
    (rest : List FName) (fs : FS) (hf : fs.isfile f = true)
    (hu : env.undeletable.contains f = true) :
    remove_files env (f :: rest) fs = (some (PyErr.osError f), fs) := by
  simp [remove_files, os_remove, hf, hu]

theorem merge_fold_read (inputs : List FName) (target : FName) :
    ∀ fs : FS, (∀ f ∈ inputs, f ≠ target) →
      (List.foldl (fun acc g => FS.appendF acc target (FS.read acc g)) fs
        inputs).read target
        = fs.read target ++ (inputs.map (fun g => FS.read fs g)).flatten := by
  induction inputs with
  | nil =>
    intro fs _
    simp
  | cons g gs ih =>
    intro fs hne
    simp only [List.foldl]
    rw [ih (fs.appendF target (fs.read g))
      (fun f hf => hne f (List.mem_cons_of_mem _ hf))]
    rw [read_appendF_self]
    have hmap : gs.map (fun x => FS.read (fs.appendF target (fs.read g)) x)
        = gs.map (fun x => FS.read fs x) := by
      apply List.map_congr_left
      intro x hx
      exact read_appendF_ne fs target x (fs.read g)
        (Ne.symm (hne x (List.mem_cons_of_mem _ hx)))
    rw [hmap]
    simp [List.append_assoc]

theorem main_join_merge_fail (a : Args) (tok : Tokenizer) (larr rarr : List Row)
    (n : Nat) (dest : String) (of : FName) (env : IOEnv) (fs : FS)
    (hn : ¬ n ≤ 1) (hd : a.output_file = some dest) (hm : env.mergeOk = false) :
    (main_join a tok larr rarr n (some of) env fs).1 =
      Except.error PyErr.mergeError := by
  unfold main_join
  rw [if_neg hn, hd]
  simp [merge_outputs, hm]

theorem main_join_cleanup_fail (a : Args) (tok : Tokenizer) (larr rarr : List Row)
    (n : Nat) (dest : String) (of : FName) (env : IOEnv) (fs : FS)
    (hn : ¬ n ≤ 1) (hd : a.output_file = some dest) (hm : env.mergeOk = true)
    (hu : env.undeletable.contains (Sum.inl fs.counter) = true) :
    (main_join a tok larr rarr n (some of) env fs).1 =
      Except.error (PyErr.osError (Sum.inl fs.counter)) := by
  have hn0 : n ≠ 0 := by omega
  obtain ⟨rest, hrest⟩ := gtf_head n fs hn0
  have h2 : (dispatch_file_jobs a tok larr (split_table rarr n)
      (get_temp_filenames n fs).1 n (ceil_div a.flush_after n)
      (get_temp_filenames n fs).2).2.isfile (Sum.inl fs.counter) = true :=
    dispatch_file_jobs_isfile _ _ _ _ _ _ _ _ _ (gtf_isfile_head n fs hn0)
  unfold main_join
  rw [if_neg hn, hd]
  dsimp only
  rw [hrest] at h2 ⊢
  simp only [merge_outputs, hm, if_true]
  have h3 : (List.foldl (fun acc g => FS.appendF acc of (FS.read acc g))
      (dispatch_file_jobs a tok larr (split_table rarr n)
        (Sum.inl fs.counter :: rest) n (ceil_div a.flush_after n)
        (get_temp_filenames n fs).2).2
      (Sum.inl fs.counter :: rest)).isfile (Sum.inl fs.counter) = true :=
    foldl_merge_isfile _ of _ _ h2
  rw [remove_files_head_undeletable env (Sum.inl fs.counter) rest _ h3 hu]

/-- C9 (amended): disk-spooled merge and cleanup semantics, universally.
(1) Every valid disk-spooled parallel run whose concatenation fails aborts
with the merge error (concatenation failure is fatal).  (2) A successful
concatenation appends each per-job temp file's contents to the shared spool
in ascending job-index (list) order, for any file store and any per-job file
list disjoint from the spool.  (3) The cleanup loop skips a per-job temp
file that no longer exists (non-fatal), but (4) surfaces the OSError of a
deletion that itself fails, and (5) every valid disk-spooled parallel run
whose first per-job temp file is undeletable aborts with exactly that
OSError (deletion failure is fatal, contrary to the original claim). -/
theorem spool_merge_and_cleanup_semantics :
    (∀ (a : Args) (env : IOEnv) (n_cpus : Nat) (tok0 : Tokenizer) (fs0 : FS)
      (dest : String), validations a tok0 = true → a.output_file = some dest →
      1 < effective_n_jobs a n_cpus → env.mergeOk = false →
      (jaccard_join a env n_cpus tok0 fs0).result =
        Except.error PyErr.mergeError) ∧
    (∀ (env : IOEnv) (inputs : List FName) (target : FName) (fs : FS),
      env.mergeOk = true → (∀ f ∈ inputs, f ≠ target) →
      ∃ fs', merge_outputs env inputs target fs = Except.ok fs' ∧
        FS.read fs' target
          = FS.read fs target ++ (inputs.map (fun g => FS.read fs g)).flatten) ∧
    (∀ (env : IOEnv) (f : FName) (rest : List FName) (fs : FS),
      FS.isfile fs f = false →
      remove_files env (f :: rest) fs = remove_files env rest fs) ∧
    (∀ (env : IOEnv) (f : FName) (rest : List FName) (fs : FS),
      FS.isfile fs f = true → env.undeletable.contains f = true →
      remove_files env (f :: rest) fs = (some (PyErr.osError f), fs)) ∧
    (∀ (a : Args) (env : IOEnv) (n_cpus : Nat) (tok0 : Tokenizer) (fs0 : FS)
      (dest : String), validations a tok0 = true → a.output_file = some dest →
      1 < effective_n_jobs a n_cpus → env.mergeOk = true →
      env.undeletable.contains (Sum.inl (fs0.counter + 1)) = true →
      (jaccard_join a env n_cpus tok0 fs0).result =
        Except.error (PyErr.osError (Sum.inl (fs0.counter + 1)))) := by
  refine ⟨?_, ?_, ?_, ?_, ?_⟩
  · intro a env n_cpus tok0 fs0 dest hv hd hn hm
    have hof : (init_spool a fs0).1 = some (Sum.inl fs0.counter) := by
      simp [init_spool, hd, FS.mkTemp]
    have hmf := main_join_merge_fail a (enabled_tok tok0)
      (convert_dataframe_to_array a.ltable) (convert_dataframe_to_array a.rtable)
      (effective_n_jobs a n_cpus) dest (Sum.inl fs0.counter) env
      ((init_spool a fs0).2) (by omega) hd hm
    rcases hmj : main_join a (enabled_tok tok0)
      (convert_dataframe_to_array a.ltable) (convert_dataframe_to_array a.rtable)
      (effective_n_jobs a n_cpus) ((init_spool a fs0).1) env
      ((init_spool a fs0).2) with ⟨res, fsx⟩
    rw [hof] at hmj
    rw [hmj] at hmf
    simp only [] at hmf
    simp [jaccard_join, hv, hof, hmj, hmf]
  · intro env inputs target fs hm hne
    refine ⟨List.foldl (fun acc g => FS.appendF acc target (FS.read acc g)) fs
      inputs, ?_, ?_⟩
    · simp [merge_outputs, hm]
    · exact merge_fold_read inputs target fs hne
  · intro env f rest fs h
    exact remove_files_skip_missing env f rest fs h
  · intro env f rest fs hf hu
    exact remove_files_head_undeletable env f rest fs hf hu
  · intro a env n_cpus tok0 fs0 dest hv hd hn hm hu
    have hof : (init_spool a fs0).1 = some (Sum.inl fs0.counter) := by
      simp [init_spool, hd, FS.mkTemp]
    have hcnt : ((init_spool a fs0).2).counter = fs0.counter + 1 := by
      simp [init_spool, hd, FS.mkTemp]
    have hu' : env.undeletable.contains
        (Sum.inl ((init_spool a fs0).2).counter) = true := by
      rw [hcnt]
      exact hu
    have hmf := main_join_cleanup_fail a (enabled_tok tok0)
      (convert_dataframe_to_array a.ltable) (convert_dataframe_to_array a.rtable)
      (effective_n_jobs a n_cpus) dest (Sum.inl fs0.counter) env
      ((init_spool a fs0).2) (by omega) hd hm hu'
    rw [hcnt] at hmf
    rcases hmj : main_join a (enabled_tok tok0)
      (convert_dataframe_to_array a.ltable) (convert_dataframe_to_array a.rtable)
      (effective_n_jobs a n_cpus) ((init_spool a fs0).1) env
      ((init_spool a fs0).2) with ⟨res, fsx⟩
    rw [hof] at hmj
    rw [hmj] at hmf
    simp only [] at hmf
    simp [jaccard_join, hv, hof, hmj, hmf]

/-- A failure raised during finalization (here an undeletable spool file)
occurs after the revert of lines 273-275: the run raises, yet the tokenizer
comes back restored (`return_set` off again, two calls recorded) — so
failure outcomes split around the revert point, and only failures raised
before it leave the flag enabled. -/
theorem finalize_failure_returns_reverted_tokenizer :
    (jaccard_join fileArgs ⟨true, [Sum.inl 0]⟩ 4 tokOff emptyFS).result =
      Except.error (PyErr.osError (Sum.inl 0)) ∧
    (jaccard_join fileArgs ⟨true, [Sum.inl 0]⟩ 4 tokOff emptyFS).tok =
      ⟨false, 2⟩ :=
  ⟨rfl, rfl⟩
